import Mathlib

/-!
# The PostgreSQL SCEP depot (`depot.go`)

A shallow embedding of `SQLDepot` and its seven operations.

* The three tables are lists of rows; an `INSERT` appends a row, the
  `DELETE` of `HasChallenge` filters, the queries read.
* Every statement sent to the database takes the error the driver reports
  for it as an input (`none`: the statement was executed).  A statement
  that reports an error leaves the tables as they were.
* The functions of the Go standard library and of `micromdm/scep` that
  `depot.go` calls (PEM, X.509, RSA, SHA-256, base64) are the fields of
  `Lib`; what they read from `rand.Reader` is an input of each call.
* A Go `panic` is the outcome `Outcome.panicked`.
-/

namespace Depot

/-- A byte slice (`[]byte`). -/
abbrev Bytes := List (Fin 256)

/-- The `error` values that occur in `depot.go`. -/
inductive GoError where
  /-- `errors.New(msg)`, created in `depot.go` itself -/
  | errorsNew (msg : String)
  /-- `sql.ErrNoRows` -/
  | ErrNoRows
  /-- the error `Scan` reports when the column value cannot be stored in the destination -/
  | scan (detail : String)
  /-- any other error reported by `database/sql` or the driver -/
  | storage (detail : String)
  /-- an error returned by `crypto/*`, `encoding/pem` or `micromdm/scep` -/
  | library (detail : String)
  deriving DecidableEq, Repr

/-- What a Go `panic` carries. -/
inductive PanicValue where
  /-- `panic(err)` -/
  | err (e : GoError)
  /-- the runtime error of a field access through a nil pointer -/
  | nilDereference
  deriving DecidableEq, Repr

/-- A call either returns a value to its caller or panics. -/
inductive Outcome (α : Type) where
  | returned (v : α)
  | panicked (p : PanicValue)
  deriving DecidableEq, Repr

/-- The fields of `x509.Certificate` that `depot.go` reads. -/
structure Certificate where
  Raw : Bytes
  SubjectCommonName : String
  SerialNumber : Int
  NotBefore : Int
  NotAfter : Int
  deriving DecidableEq, Repr

/-- An `rsa.PrivateKey`. -/
structure PrivateKey where
  N : Nat
  E : Nat
  D : Nat
  Primes : List Nat
  deriving DecidableEq, Repr

/-- A `pem.Block`. -/
structure PemBlock where
  blockType : String
  headers : List (String × String)
  bytes : Bytes
  deriving DecidableEq, Repr

/-- A row of `certificates`. -/
structure CertRow where
  id : Int
  name : String
  not_valid_before : Int
  not_valid_after : Int
  certificate_pem : Bytes
  deriving DecidableEq, Repr

/-- A row of `ca_keys`. -/
structure KeyRow where
  certificate_id : Int
  key_pem : Bytes
  deriving DecidableEq, Repr

/-- The contents of the three tables. -/
structure Database where
  certificates : List CertRow
  ca_keys : List KeyRow
  challenges : List String
  deriving DecidableEq, Repr

/-- The struct `SQLDepot`: the database handle and the cached authority. -/
structure SQLDepot where
  database : Database
  certificate : Option Certificate
  rsaKey : Option PrivateKey
  deriving DecidableEq, Repr

/-- The library functions `depot.go` calls.  The first argument of
`generateKey`, `selfSign` and `encryptPEMBlock` is what the call reads from
`rand.Reader` (and, for `selfSign`, the clock). -/
structure Lib where
  /-- `pem.Decode`, first result: `none` is the nil block -/
  pemDecode : Bytes → Option PemBlock
  /-- `pem.EncodeToMemory` -/
  pemEncodeToMemory : PemBlock → Bytes
  /-- `x509.ParseCertificate` -/
  parseCertificate : Bytes → Except GoError Certificate
  /-- `x509.DecryptPEMBlock` -/
  decryptPEMBlock : PemBlock → Bytes → Except GoError Bytes
  /-- `x509.EncryptPEMBlock(rand, blockType, data, password, x509.PEMCipher3DES)` -/
  encryptPEMBlock : Bytes → String → Bytes → Bytes → Except GoError PemBlock
  /-- `x509.ParsePKCS1PrivateKey` -/
  parsePKCS1PrivateKey : Bytes → Except GoError PrivateKey
  /-- `x509.MarshalPKCS1PrivateKey` -/
  marshalPKCS1PrivateKey : PrivateKey → Bytes
  /-- `rsa.GenerateKey(rand, bits)` -/
  generateKey : Bytes → Nat → Except GoError PrivateKey
  /-- `depot.NewCACert(WithYears, WithOrganization, WithCommonName, WithCountry).SelfSign(rand, pub, priv)` -/
  selfSign : Bytes → Int → String → String → String → PrivateKey → Except GoError Bytes
  /-- `sha256.Sum256` -/
  sum256 : Bytes → Bytes
  /-- `base64.StdEncoding.EncodeToString` -/
  base64EncodeToString : Bytes → String

/-! ## Challenges -/

/-- `INSERT INTO challenges (challenge) VALUES ($1);` -/
def insertChallenge (db : Database) (execErr : Option GoError) (challenge : String) :
    Database × Option GoError :=
  match execErr with
  | some e => (db, some e)
  | none => ({ db with challenges := db.challenges ++ [challenge] }, none)

/-- `DELETE FROM challenges WHERE challenge = $1;` with the number of rows
affected. -/
def deleteChallenge (db : Database) (execErr : Option GoError) (pw : String) :
    Database × Except GoError Nat :=
  match execErr with
  | some e => (db, .error e)
  | none =>
    ({ db with challenges := db.challenges.filter (fun c => decide (c ≠ pw)) },
      .ok (db.challenges.count pw))

/-- `SQLDepot.SCEPChallenge`.  `randRead n` is the result of `rand.Read` on
a slice of `n` bytes. -/
def SCEPChallenge (lib : Lib) (d : SQLDepot) (randRead : Nat → Except GoError Bytes)
    (execErr : Option GoError) : SQLDepot × (String × Option GoError) :=
  match randRead 24 with
  | .error err => (d, ("", some err))
  | .ok rsaKey =>
    let challenge := lib.base64EncodeToString rsaKey
    match insertChallenge d.database execErr challenge with
    | (db, some err) => ({ d with database := db }, ("", some err))
    | (db, none) => ({ d with database := db }, (challenge, none))

/-- `SQLDepot.HasChallenge`.  `execErr` is the error of `ExecContext`,
`rowsErr` the error of `result.RowsAffected()`. -/
def HasChallenge (d : SQLDepot) (execErr rowsErr : Option GoError) (pw : String) :
    SQLDepot × (Bool × Option GoError) :=
  match deleteChallenge d.database execErr pw with
  | (db, .error err) => ({ d with database := db }, (false, some err))
  | (db, .ok rowCt) =>
    match rowsErr with
    | some err => ({ d with database := db }, (false, some err))
    | none =>
      if rowCt < 1 then
        ({ d with database := db }, (false, some (GoError.errorsNew "challenge not found")))
      else
        ({ d with database := db }, (true, none))

/-! ## Certificates -/

/-- `big.Int.IsInt64`: the value is in the range of a 64-bit signed integer. -/
def IsInt64 (x : Int) : Prop :=
  -9223372036854775808 ≤ x ∧ x ≤ 9223372036854775807

instance : DecidablePred IsInt64 := fun x => by
  unfold IsInt64; exact inferInstance

/-- The digit `fmt` prints for a value below 16 under the verb `%x`. -/
def hexDigit (n : Nat) : Char :=
  "0123456789abcdef".toList.getD n '0'

/-- The characters of `fmt.Sprintf("%x", b)` for a byte array `b`: two
lowercase hexadecimal digits for each byte, the high one first. -/
def sprintfHex : Bytes → List Char
  | [] => []
  | b :: bs => hexDigit (b.val / 16) :: hexDigit (b.val % 16) :: sprintfHex bs

/-- `INSERT INTO certificates (name, not_valid_before, not_valid_after,
certificate_pem) VALUES ($1, $2, $3, $4);`.  The column `id` is not in the
statement: `assignedId` is the value the database gives it. -/
def insertCertificate (db : Database) (assignedId : Int) (execErr : Option GoError)
    (name : String) (notBefore notAfter : Int) (pemBytes : Bytes) :
    Database × Option GoError :=
  match execErr with
  | some e => (db, some e)
  | none =>
    ({ db with certificates :=
        db.certificates ++ [⟨assignedId, name, notBefore, notAfter, pemBytes⟩] }, none)

/-- `SQLDepot.Put`. -/
def Put (lib : Lib) (d : SQLDepot) (assignedId : Int) (execErr : Option GoError)
    (name : String) (certificate : Certificate) : SQLDepot × Option GoError :=
  let name :=
    if certificate.SubjectCommonName = "" then
      String.mk (sprintfHex (lib.sum256 certificate.Raw))
    else name
  if ¬ IsInt64 certificate.SerialNumber then
    (d, some (GoError.errorsNew "cannot represent serial number as int64"))
  else
    let block : PemBlock := ⟨"CERTIFICATE", [], certificate.Raw⟩
    match insertCertificate d.database assignedId execErr name
        certificate.NotBefore certificate.NotAfter (lib.pemEncodeToMemory block) with
    | (db, err) => ({ d with database := db }, err)

/-- The value of `max(id)` over the rows: `none` is SQL `NULL`, the value
over no row. -/
def maxId : List CertRow → Option Int
  | [] => none
  | r :: rs =>
    match maxId rs with
    | none => some r.id
    | some m => some (max r.id m)

/-- `Scan(&id)` with `var id int64` on a single integer column. -/
def scanInt64 : Option Int → Except GoError Int
  | none => .error (GoError.scan "converting NULL to int64 is unsupported")
  | some v =>
    if IsInt64 v then .ok v
    else .error (GoError.scan "value out of range")

/-- `d.database.QueryRow("SELECT max(id) from certificates").Scan(&id)`. -/
def queryMaxId (db : Database) (queryErr : Option GoError) : Except GoError Int :=
  match queryErr with
  | some e => .error e
  | none => scanInt64 (maxId db.certificates)

/-- `SQLDepot.Serial`. -/
def Serial (d : SQLDepot) (queryErr : Option GoError) : Outcome (Int × Option GoError) :=
  match queryMaxId d.database queryErr with
  | .error err => .panicked (PanicValue.err err)
  | .ok id => .returned (id, none)

/-- `SELECT COUNT(*) FROM certificates WHERE name = $1 ;` scanned into an
`int`. -/
def queryCountByName (db : Database) (queryErr : Option GoError) (name : String) :
    Except GoError Int :=
  match queryErr with
  | some e => .error e
  | none => .ok ((db.certificates.filter (fun r => decide (r.name = name))).length : Int)

/-- `SQLDepot.HasCN`.  The argument bound to `$1` is the literal `"ca"`. -/
def HasCN (d : SQLDepot) (queryErr : Option GoError) (cn : String) (allowTime : Int)
    (cert : Option Certificate) (revokeOldCertificate : Bool) : Bool × Option GoError :=
  match queryCountByName d.database queryErr "ca" with
  | .error err => (false, some err)
  | .ok ct => (decide (ct ≥ 1), none)

/-! ## The authority -/

/-- `x509.IsEncryptedPEMBlock`: the block has a `DEK-Info` header. -/
def IsEncryptedPEMBlock (b : PemBlock) : Bool :=
  b.headers.any (fun h => h.1 == "DEK-Info")

/-- The key rows joined to one certificate row by the query of `loadCA`. -/
def joinKeys (c : CertRow) : List KeyRow → List (Bytes × Bytes)
  | [] => []
  | k :: ks =>
    if c.id = k.certificate_id ∧ c.id = 1 then
      (c.certificate_pem, k.key_pem) :: joinKeys c ks
    else joinKeys c ks

/-- The rows of `SELECT certificate_pem, key_pem FROM certificates INNER
JOIN ca_keys ON certificates.id = ca_keys.certificate_id WHERE
certificates.id = 1;`. -/
def authorityRows (keys : List KeyRow) : List CertRow → List (Bytes × Bytes)
  | [] => []
  | c :: cs => joinKeys c keys ++ authorityRows keys cs

/-- `QueryRowContext(...).Scan(&pemCert, &pemKey)`: the first row, or
`sql.ErrNoRows`. -/
def queryAuthority (db : Database) (queryErr : Option GoError) :
    Except GoError (Bytes × Bytes) :=
  match queryErr with
  | some e => .error e
  | none =>
    match authorityRows db.ca_keys db.certificates with
    | [] => .error GoError.ErrNoRows
    | row :: _ => .ok row

/-- What a call returns for `(*x509.Certificate, *rsa.PrivateKey, error)`. -/
abbrev CAResult := Option Certificate × Option PrivateKey × Option GoError

/-- `SQLDepot.loadCA`.  `block.Type` and `x509.IsEncryptedPEMBlock(block)`
read a field of `block`: on the nil block they panic. -/
def loadCA (lib : Lib) (d : SQLDepot) (queryErr : Option GoError) (pass : Bytes) :
    Outcome CAResult :=
  match queryAuthority d.database queryErr with
  | .error err =>
    if err = GoError.ErrNoRows then .returned (none, none, none)
    else .returned (none, none, some err)
  | .ok (pemCert, pemKey) =>
    match lib.pemDecode pemCert with
    | none => .panicked PanicValue.nilDereference
    | some block =>
      if block.blockType ≠ "CERTIFICATE" then
        .returned (none, none, some (GoError.errorsNew "PEM block not a certificate"))
      else
        match lib.parseCertificate block.bytes with
        | .error err => .returned (none, none, some err)
        | .ok certificate =>
          match lib.pemDecode pemKey with
          | none => .panicked PanicValue.nilDereference
          | some block =>
            if !IsEncryptedPEMBlock block then
              .returned (none, none, some (GoError.errorsNew "PEM block not encrypted"))
            else
              match lib.decryptPEMBlock block pass with
              | .error err => .returned (none, none, some err)
              | .ok keyBytes =>
                match lib.parsePKCS1PrivateKey keyBytes with
                | .error err => .returned (none, none, some err)
                | .ok rsaKey => .returned (some certificate, some rsaKey, none)

/-- What one call of `CreateOrLoadCA` takes from outside the program: the
error of each statement, what each library call reads from `rand.Reader`,
and the `id` the database gives the new certificate row. -/
structure Ambient where
  queryErr : Option GoError
  keyRand : Bytes
  signRand : Bytes
  encryptRand : Bytes
  assignedId : Int
  putErr : Option GoError
  insertKeyErr : Option GoError
  deriving DecidableEq, Repr

/-- `INSERT INTO ca_keys (certificate_id, key_pem) VALUES ($1, $2);`. -/
def insertCaKey (db : Database) (execErr : Option GoError) (certificateId : Int)
    (keyPem : Bytes) : Database × Option GoError :=
  match execErr with
  | some e => (db, some e)
  | none => ({ db with ca_keys := db.ca_keys ++ [⟨certificateId, keyPem⟩] }, none)

/-- `SQLDepot.createCA`. -/
def createCA (lib : Lib) (d : SQLDepot) (w : Ambient) (pass : Bytes) (years : Int)
    (cn org country : String) : SQLDepot × CAResult :=
  match lib.generateKey w.keyRand 2048 with
  | .error err => (d, (none, none, some err))
  | .ok privKey =>
    match lib.selfSign w.signRand years org cn country privKey with
    | .error err => (d, (none, none, some err))
    | .ok certificateBytes =>
      match lib.parseCertificate certificateBytes with
      | .error err => (d, (none, none, some err))
      | .ok certificate =>
        match Put lib d w.assignedId w.putErr certificate.SubjectCommonName certificate with
        | (d, some err) => (d, (none, none, some err))
        | (d, none) =>
          match lib.encryptPEMBlock w.encryptRand "RSA PRIVATE KEY"
              (lib.marshalPKCS1PrivateKey privKey) pass with
          | .error err => (d, (none, none, some err))
          | .ok encPemBlock =>
            match insertCaKey d.database w.insertKeyErr 1
                (lib.pemEncodeToMemory encPemBlock) with
            | (db, some err) => ({ d with database := db }, (none, none, some err))
            | (db, none) =>
              ({ database := db, certificate := some certificate, rsaKey := some privKey },
                (some certificate, some privKey, none))

/-- `SQLDepot.CreateOrLoadCA`.  The result of `loadCA` is assigned to the
fields `certificate` and `rsaKey` before the error is looked at. -/
def CreateOrLoadCA (lib : Lib) (d : SQLDepot) (w : Ambient) (pass : Bytes) (years : Int)
    (cn org country : String) : Outcome (SQLDepot × CAResult) :=
  match loadCA lib d w.queryErr pass with
  | .panicked p => .panicked p
  | .returned (certificate, rsaKey, err) =>
    let d : SQLDepot := { d with certificate := certificate, rsaKey := rsaKey }
    match err with
    | some err => .returned (d, (none, none, some err))
    | none =>
      if d.certificate.isSome && d.rsaKey.isSome then
        .returned (d, (d.certificate, d.rsaKey, none))
      else
        .returned (createCA lib d w pass years cn org country)

/-- `SQLDepot.CA`.  The nil slice is the empty list. -/
def CA (d : SQLDepot) (pass : Bytes) : List Certificate × Option PrivateKey × Option GoError :=
  match d.certificate, d.rsaKey with
  | some certificate, some rsaKey => ([certificate], some rsaKey, none)
  | _, _ => ([], none, some (GoError.errorsNew "CA certificate or rsaKey is empty"))

/-- The depot `SqlDepot` returns: no authority is cached. -/
def SqlDepot (db : Database) : SQLDepot :=
  { database := db, certificate := none, rsaKey := none }

/-! ## Sequences of calls -/

/-- One call of `Put`: its arguments, the `id` the database gives the row
and the error the `INSERT` reports. -/
structure PutCall where
  name : String
  certificate : Certificate
  assignedId : Int
  execErr : Option GoError
  deriving DecidableEq, Repr

/-- The depot after one call of `Put`. -/
def afterPut (lib : Lib) (d : SQLDepot) (c : PutCall) : SQLDepot :=
  (Put lib d c.assignedId c.execErr c.name c.certificate).1

/-- What `Serial` gives after each `Put` of a sequence of `Put` calls with
nothing in between, when the query of `Serial` reports no error. -/
def serialAfterEachPut (lib : Lib) (d : SQLDepot) : List PutCall → List (Outcome (Int × Option GoError))
  | [] => []
  | c :: cs => Serial (afterPut lib d c) none :: serialAfterEachPut lib (afterPut lib d c) cs

/-- Every `Put` of the sequence returns a nil error, and the row it writes
receives an `id` that fits an `int64` and is greater than every `id` in the
table. -/
def PutsSucceed (lib : Lib) (d : SQLDepot) : List PutCall → Prop
  | [] => True
  | c :: cs =>
    (Put lib d c.assignedId c.execErr c.name c.certificate).2 = none ∧
    IsInt64 c.assignedId ∧
    (∀ r ∈ d.database.certificates, r.id < c.assignedId) ∧
    PutsSucceed lib (afterPut lib d c) cs

/-- One call of `CreateOrLoadCA`: its arguments and what it takes from
outside. -/
structure CACall where
  w : Ambient
  pass : Bytes
  years : Int
  cn : String
  org : String
  country : String
  deriving DecidableEq, Repr

/-- A sequence of `CreateOrLoadCA` calls on one depot: the depot after the
last call and what each call returned.  A call that panics ends the run. -/
def runCreateOrLoadCA (lib : Lib) : SQLDepot → List CACall → Outcome (SQLDepot × List CAResult)
  | d, [] => .returned (d, [])
  | d, c :: cs =>
    match CreateOrLoadCA lib d c.w c.pass c.years c.cn c.org c.country with
    | .panicked p => .panicked p
    | .returned (d1, r) =>
      match runCreateOrLoadCA lib d1 cs with
      | .panicked p => .panicked p
      | .returned (d2, rs) => .returned (d2, r :: rs)

/-- What `CA` returns on a depot whose latest `CreateOrLoadCA` call
returned `r` (`none`: no call was made). -/
def cachedAuthority : Option CAResult → List Certificate × Option PrivateKey × Option GoError
  | some (some certificate, some rsaKey, none) => ([certificate], some rsaKey, none)
  | _ => ([], none, some (GoError.errorsNew "CA certificate or rsaKey is empty"))

/-- The round trips of the library that loading a stored authority relies
on: a parsed certificate keeps the bytes it was parsed from, a
`CERTIFICATE` block is decoded from its encoding, the encrypted key block
is decoded from its encoding as an encrypted block that decrypts, under the
same passphrase, to the bytes that were encrypted, and a generated key is
parsed from its PKCS#1 encoding. -/
structure CodecLaws (lib : Lib) : Prop where
  raw_of_parse : ∀ raw c, lib.parseCertificate raw = .ok c → c.Raw = raw
  decode_certificate : ∀ raw,
    lib.pemDecode (lib.pemEncodeToMemory ⟨"CERTIFICATE", [], raw⟩)
      = some ⟨"CERTIFICATE", [], raw⟩
  decrypt_encrypt : ∀ seed data pass blk,
    lib.encryptPEMBlock seed "RSA PRIVATE KEY" data pass = .ok blk →
    ∃ blk', lib.pemDecode (lib.pemEncodeToMemory blk) = some blk' ∧
      IsEncryptedPEMBlock blk' = true ∧ lib.decryptPEMBlock blk' pass = .ok data
  parse_marshal : ∀ seed bits k, lib.generateKey seed bits = .ok k →
    lib.parsePKCS1PrivateKey (lib.marshalPKCS1PrivateKey k) = .ok k

/-- The store either holds an authority row already, read by a query that
reports no error, or holds no certificate with `id` 1 and no key row for
certificate 1 while the certificate row the call writes receives `id` 1. -/
def AuthorityAtOne (db : Database) (w : Ambient) : Prop :=
  (authorityRows db.ca_keys db.certificates ≠ [] ∧ w.queryErr = none) ∨
  ((∀ r ∈ db.certificates, r.id ≠ 1) ∧ (∀ k ∈ db.ca_keys, k.certificate_id ≠ 1) ∧
    w.assignedId = 1)

/-! ## A small instance of the library

`demoLib` is an instance of `Lib` on which the operations evaluate: a block
is encoded as a tag byte followed by its bytes, a certificate is read off
its raw bytes, and a key is protected by a byte derived from the
passphrase. -/

/-- The headers `demoLib` gives an encrypted block. -/
def demoHeaders : List (String × String) :=
  [("Proc-Type", "4,ENCRYPTED"), ("DEK-Info", "DES-EDE3-CBC,00")]

/-- The byte `n mod 256`. -/
def byteOfNat (n : Nat) : Fin 256 :=
  ⟨n % 256, Nat.mod_lt n (by decide)⟩

/-- Decoding in `demoLib`: tag 0 is a `CERTIFICATE` block, tag 1 an
encrypted `RSA PRIVATE KEY` block, tag 2 an `RSA PRIVATE KEY` block without
headers; anything else holds no block. -/
def demoDecode : Bytes → Option PemBlock
  | [] => none
  | t :: bs =>
    if t.val = 0 then some ⟨"CERTIFICATE", [], bs⟩
    else if t.val = 1 then some ⟨"RSA PRIVATE KEY", demoHeaders, bs⟩
    else if t.val = 2 then some ⟨"RSA PRIVATE KEY", [], bs⟩
    else none

/-- Encoding in `demoLib`. -/
def demoEncode (b : PemBlock) : Bytes :=
  if b.headers.isEmpty then
    (if b.blockType = "CERTIFICATE" then (0 : Fin 256) else 2) :: b.bytes
  else (1 : Fin 256) :: b.bytes

/-- Certificate parsing in `demoLib`: the first raw byte tells whether the
subject has a common name. -/
def demoParseCertificate : Bytes → Except GoError Certificate
  | [] => .error (GoError.library "x509: malformed certificate")
  | b :: bs =>
    .ok ⟨b :: bs, if b.val = 0 then "" else "Test CA", (bs.length : Int), 0, 10⟩

/-- Decryption in `demoLib`: the first byte must be the passphrase length. -/
def demoDecrypt (blk : PemBlock) (pass : Bytes) : Except GoError Bytes :=
  match blk.bytes with
  | [] => .error (GoError.library "x509: no DEK-Info header in block")
  | t :: rest =>
    if t = byteOfNat pass.length then .ok rest
    else .error (GoError.library "x509: decryption password incorrect")

/-- Key parsing in `demoLib`. -/
def demoParseKey : Bytes → Except GoError PrivateKey
  | [n] => .ok ⟨n.val, 65537, 1, []⟩
  | _ => .error (GoError.library "x509: failed to parse private key")

/-- The instance. -/
def demoLib : Lib where
  pemDecode := demoDecode
  pemEncodeToMemory := demoEncode
  parseCertificate := demoParseCertificate
  decryptPEMBlock := demoDecrypt
  encryptPEMBlock := fun _ ty data pass => .ok ⟨ty, demoHeaders, byteOfNat pass.length :: data⟩
  parsePKCS1PrivateKey := demoParseKey
  marshalPKCS1PrivateKey := fun k => [byteOfNat k.N]
  generateKey := fun seed _ => .ok ⟨(seed.headD 0).val, 65537, 1, []⟩
  selfSign := fun seed _ _ _ _ _ => .ok seed
  sum256 := fun raw => raw.take 2
  base64EncodeToString := fun bs => String.mk (sprintfHex bs)

/-! ## Challenges: proofs -/

/-- After the `DELETE` no row equal to `pw` is left. -/
theorem count_filter_ne (l : List String) (pw : String) :
    (l.filter (fun c => decide (c ≠ pw))).count pw = 0 := by
  rw [List.count_eq_zero]
  intro h
  simp [List.mem_filter] at h

/-- What `HasChallenge` does when the `DELETE` is executed and the row count is
read: the rows equal to `pw` are removed, and the call succeeds when there
was at least one. -/
theorem HasChallenge_executed (d : SQLDepot) (pw : String) :
    HasChallenge d none none pw =
      ({ d with database :=
          { d.database with
            challenges := d.database.challenges.filter (fun c => decide (c ≠ pw)) } },
        if d.database.challenges.count pw < 1 then
          (false, some (GoError.errorsNew "challenge not found"))
        else (true, none)) := by
  unfold HasChallenge deleteChallenge
  by_cases h : d.database.challenges.count pw < 1 <;> simp [h]

/-- A successful `SCEPChallenge` has appended the secret it returns to
`challenges` and changed nothing else. -/
theorem SCEPChallenge_success (lib : Lib) (d d1 : SQLDepot)
    (randRead : Nat → Except GoError Bytes) (execErr : Option GoError) (S : String)
    (h : SCEPChallenge lib d randRead execErr = (d1, (S, none))) :
    d1 = { d with database :=
            { d.database with challenges := d.database.challenges ++ [S] } } := by
  unfold SCEPChallenge insertChallenge at h
  cases hr : randRead 24 with
  | error e => simp [hr] at h
  | ok k =>
    cases execErr with
    | some e => simp [hr] at h
    | none =>
      simp [hr] at h
      obtain ⟨h1, h2⟩ := h
      rw [← h1, h2]

/-- Claim C1 (challenge single use).  From every depot state, if
`SCEPChallenge` returns a secret `S` with a nil error, then the next
`HasChallenge(S)` whose statement is executed returns `(true, nil)`, and a
further `HasChallenge(S)` right after it returns `false` with the error
"challenge not found". -/
theorem challenge_single_use (lib : Lib) (d d1 : SQLDepot)
    (randRead : Nat → Except GoError Bytes) (execErr : Option GoError) (S : String)
    (h : SCEPChallenge lib d randRead execErr = (d1, (S, none))) :
    (HasChallenge d1 none none S).2 = (true, none) ∧
    (HasChallenge (HasChallenge d1 none none S).1 none none S).2 =
      (false, some (GoError.errorsNew "challenge not found")) := by
  have hd := SCEPChallenge_success lib d d1 randRead execErr S h
  subst hd
  constructor
  · rw [HasChallenge_executed]
    simp
  · rw [HasChallenge_executed, HasChallenge_executed]
    dsimp only
    rw [count_filter_ne]
    simp

/-- Claim C2 (redeeming a challenge).  On a `challenges` table without
duplicate secrets, when the statement is executed: `HasChallenge(pw)` returns
`(true, nil)` exactly when one row was deleted, which is exactly when `pw` is
a pending secret; the depot afterwards is the depot before with that one row
erased, every other row kept; and when `pw` is no pending secret the call
returns `false` with "challenge not found" and the depot is unchanged. -/
theorem HasChallenge_redeems (d : SQLDepot) (pw : String)
    (hu : d.database.challenges.Nodup) :
    ((HasChallenge d none none pw).2 = (true, none) ↔
      d.database.challenges.length
        - (HasChallenge d none none pw).1.database.challenges.length = 1) ∧
    (d.database.challenges.length
        - (HasChallenge d none none pw).1.database.challenges.length = 1 ↔
      pw ∈ d.database.challenges) ∧
    (HasChallenge d none none pw).1 =
      { d with database :=
          { d.database with challenges := d.database.challenges.erase pw } } ∧
    (pw ∉ d.database.challenges →
      HasChallenge d none none pw =
        (d, (false, some (GoError.errorsNew "challenge not found")))) := by
  have hf : d.database.challenges.filter (fun c => decide (c ≠ pw))
      = d.database.challenges.erase pw := by
    rw [hu.erase_eq_filter]
    congr 1
    funext c
    by_cases hc : c = pw <;> simp [hc]
  rw [HasChallenge_executed, hf]
  by_cases hm : pw ∈ d.database.challenges
  · have hc : ¬ d.database.challenges.count pw < 1 := by
      have := List.count_pos_iff.mpr hm
      omega
    have hl := List.length_erase_of_mem hm
    have hpos : 0 < d.database.challenges.length := List.length_pos_of_mem hm
    simp [hc, hm, hl]
    omega
  · have hc : d.database.challenges.count pw < 1 := by
      have := List.count_eq_zero.mpr hm
      omega
    simp [hc, hm, List.erase_of_not_mem hm]

/-- A call of `HasChallenge` keeps a table without duplicates without
duplicates, whatever the database answers. -/
theorem HasChallenge_nodup (d : SQLDepot) (execErr rowsErr : Option GoError) (pw : String)
    (h : d.database.challenges.Nodup) :
    (HasChallenge d execErr rowsErr pw).1.database.challenges.Nodup := by
  unfold HasChallenge deleteChallenge
  cases execErr with
  | some e => exact h
  | none =>
    cases rowsErr with
    | some e => exact h.filter _
    | none =>
      dsimp only
      split <;> exact h.filter _

/-- Every operation but `Serial` returns the error its statement reports,
with no success value, and leaves the tables as they were. -/
theorem storage_error_returned (lib : Lib) (d : SQLDepot) (e : GoError) :
    (∀ pw rowsErr, HasChallenge d (some e) rowsErr pw = (d, (false, some e))) ∧
    (∀ k, SCEPChallenge lib d (fun _ => .ok k) (some e) = (d, ("", some e))) ∧
    (∀ cn allowTime cert revoke, HasCN d (some e) cn allowTime cert revoke = (false, some e)) ∧
    (∀ id name certificate, IsInt64 certificate.SerialNumber →
      Put lib d id (some e) name certificate = (d, some e)) := by
  refine ⟨fun _ _ => rfl, fun _ => rfl, fun _ _ _ _ => rfl, ?_⟩
  intro id name certificate hs
  simp [Put, insertCertificate, hs]

/-! ## Certificates: proofs -/

/-- A digit printed for a value below 16 is one of `0`-`9`, `a`-`f`. -/
theorem hexDigit_lowercase (n : Nat) (h : n < 16) :
    hexDigit n ∈ "0123456789abcdef".toList := by
  interval_cases n <;> decide

/-- The output of `%x` holds lowercase hexadecimal digits only. -/
theorem sprintfHex_lowercase (bs : Bytes) :
    ∀ c ∈ sprintfHex bs, c ∈ "0123456789abcdef".toList := by
  induction bs with
  | nil => intro c hc; simp [sprintfHex] at hc
  | cons b bs ih =>
    intro c hc
    simp only [sprintfHex, List.mem_cons] at hc
    rcases hc with hc | hc | hc
    · rw [hc]; exact hexDigit_lowercase _ (by have := b.isLt; omega)
    · rw [hc]; exact hexDigit_lowercase _ (by omega)
    · exact ih c hc

/-- The output of `%x` has two characters for each byte. -/
theorem sprintfHex_length (bs : Bytes) : (sprintfHex bs).length = 2 * bs.length := by
  induction bs with
  | nil => rfl
  | cons b bs ih => simp [sprintfHex, ih]; omega

/-- What `Put` does when the serial number fits an `int64` and the `INSERT` is
executed. -/
theorem Put_of_int64 (lib : Lib) (d : SQLDepot) (assignedId : Int)
    (name : String) (certificate : Certificate) (hs : IsInt64 certificate.SerialNumber) :
    Put lib d assignedId none name certificate =
      ({ d with database := { d.database with certificates := d.database.certificates ++
          [⟨assignedId,
            if certificate.SubjectCommonName = "" then
              String.mk (sprintfHex (lib.sum256 certificate.Raw)) else name,
            certificate.NotBefore, certificate.NotAfter,
            lib.pemEncodeToMemory ⟨"CERTIFICATE", [], certificate.Raw⟩⟩] } }, none) := by
  simp [Put, insertCertificate, hs]

/-- A `Put` that returns a nil error had its `INSERT` executed, on a
certificate whose serial number fits an `int64`. -/
theorem Put_success (lib : Lib) (d d1 : SQLDepot) (assignedId : Int)
    (execErr : Option GoError) (name : String) (certificate : Certificate)
    (h : Put lib d assignedId execErr name certificate = (d1, none)) :
    execErr = none ∧ IsInt64 certificate.SerialNumber := by
  unfold Put insertCertificate at h
  by_cases hs : IsInt64 certificate.SerialNumber
  · cases execErr with
    | none => exact ⟨rfl, hs⟩
    | some e => simp [hs] at h
  · simp [hs] at h

/-- A `Put` of a certificate whose serial number does not fit an `int64`
returns the error and the depot as it was. -/
theorem Put_not_int64 (lib : Lib) (d : SQLDepot) (assignedId : Int)
    (execErr : Option GoError) (name : String) (certificate : Certificate)
    (hs : ¬ IsInt64 certificate.SerialNumber) :
    Put lib d assignedId execErr name certificate =
      (d, some (GoError.errorsNew "cannot represent serial number as int64")) := by
  simp [Put, hs]

/-- A `Put` whose `INSERT` reports an error leaves the depot as it was. -/
theorem Put_failed (lib : Lib) (d : SQLDepot) (assignedId : Int)
    (e : GoError) (name : String) (certificate : Certificate) :
    (Put lib d assignedId (some e) name certificate).1 = d := by
  by_cases hs : IsInt64 certificate.SerialNumber <;> simp [Put, insertCertificate, hs]

/-- Claim C7 (unnamed-certificate fallback).  A `Put(name, certificate)` that
returns a nil error (its serial number then fits an `int64`) has added exactly
one row to `certificates` and changed nothing else.  The name of the row is
the lowercase hexadecimal digest `sha256.Sum256(certificate.Raw)`, two digits
for each byte, when the subject common name is empty, and the argument `name`
otherwise; its validity window is `NotBefore`/`NotAfter` of the certificate
and its `certificate_pem` is the encoded "CERTIFICATE" block of
`certificate.Raw`. -/
theorem Put_adds_row (lib : Lib) (d d1 : SQLDepot) (assignedId : Int)
    (execErr : Option GoError) (name : String) (certificate : Certificate)
    (h : Put lib d assignedId execErr name certificate = (d1, none)) :
    ∃ row : CertRow,
      d1 = { d with database :=
              { d.database with certificates := d.database.certificates ++ [row] } } ∧
      row.id = assignedId ∧
      (certificate.SubjectCommonName = "" →
        row.name = String.mk (sprintfHex (lib.sum256 certificate.Raw)) ∧
        row.name.length = 2 * (lib.sum256 certificate.Raw).length ∧
        ∀ c ∈ row.name.toList, c ∈ "0123456789abcdef".toList) ∧
      (certificate.SubjectCommonName ≠ "" → row.name = name) ∧
      row.not_valid_before = certificate.NotBefore ∧
      row.not_valid_after = certificate.NotAfter ∧
      row.certificate_pem = lib.pemEncodeToMemory ⟨"CERTIFICATE", [], certificate.Raw⟩ := by
  obtain ⟨he, hs⟩ := Put_success lib d d1 assignedId execErr name certificate h
  subst he
  rw [Put_of_int64 lib d assignedId name certificate hs] at h
  refine ⟨_, (Prod.mk.inj h).1.symm, rfl, ?_, ?_, rfl, rfl, rfl⟩
  · intro hcn
    simp only [hcn, if_true]
    refine ⟨trivial, ?_, ?_⟩
    · simp [String.length, sprintfHex_length]
    · exact sprintfHex_lowercase _
  · intro hcn
    simp [hcn]

/-- Claim C8 (serial numbers outside `int64`).  For a certificate whose serial
number is not representable as a 64-bit signed integer, `Put` returns the
error "cannot represent serial number as int64" and the depot unchanged,
whatever the database would have answered; hence every `Put` that changes
`certificates` was given a certificate whose serial number fits an `int64`. -/
theorem Put_rejects_wide_serial (lib : Lib) (d : SQLDepot) (assignedId : Int)
    (execErr : Option GoError) (name : String) (certificate : Certificate)
    (hs : ¬ IsInt64 certificate.SerialNumber) :
    Put lib d assignedId execErr name certificate =
      (d, some (GoError.errorsNew "cannot represent serial number as int64")) ∧
    ∀ (id1 : Int) (e1 : Option GoError) (name1 : String) (c1 : Certificate),
      (Put lib d id1 e1 name1 c1).1.database.certificates ≠ d.database.certificates →
      IsInt64 c1.SerialNumber := by
  refine ⟨Put_not_int64 lib d assignedId execErr name certificate hs, ?_⟩
  intro id1 e1 name1 c1 hne
  by_contra hc
  rw [Put_not_int64 lib d id1 e1 name1 c1 hc] at hne
  exact hne rfl

/-- The value of `max(id)` is the `id` of a row and is at least every `id`. -/
theorem maxId_spec : ∀ (l : List CertRow) (m : Int), maxId l = some m →
    (∃ r ∈ l, r.id = m) ∧ ∀ r ∈ l, r.id ≤ m
  | [], m, h => by simp [maxId] at h
  | r :: rs, m, h => by
    unfold maxId at h
    cases hrs : maxId rs with
    | none =>
      rw [hrs] at h
      simp only [Option.some.injEq] at h
      cases rs with
      | nil => subst h; simp
      | cons a as =>
        unfold maxId at hrs
        cases has : maxId as <;> simp [has] at hrs
    | some m1 =>
      rw [hrs] at h
      simp only [Option.some.injEq] at h
      obtain ⟨⟨x, hx, hxm⟩, hle⟩ := maxId_spec rs m1 hrs
      subst h
      constructor
      · rcases le_total r.id m1 with hc | hc
        · exact ⟨x, List.mem_cons_of_mem _ hx, by rw [hxm, max_eq_right hc]⟩
        · exact ⟨r, List.mem_cons_self _ _, by rw [max_eq_left hc]⟩
      · intro y hy
        rcases List.mem_cons.mp hy with hy | hy
        · subst hy; exact le_max_left _ _
        · exact le_trans (hle y hy) (le_max_right _ _)

/-- Over a table with a row `max(id)` is not `NULL`. -/
theorem maxId_isSome : ∀ (l : List CertRow), l ≠ [] → ∃ m, maxId l = some m
  | [], h => absurd rfl h
  | r :: rs, _ => by
    unfold maxId
    cases maxId rs with
    | none => exact ⟨_, rfl⟩
    | some m => exact ⟨_, rfl⟩

/-- After a row whose `id` is greater than every `id` in the table is
appended, `max(id)` is the `id` of that row. -/
theorem maxId_append_greater : ∀ (l : List CertRow) (r : CertRow),
    (∀ x ∈ l, x.id < r.id) → maxId (l ++ [r]) = some r.id
  | [], r, _ => by simp [maxId]
  | a :: as, r, h => by
    have ih := maxId_append_greater as r (fun x hx => h x (List.mem_cons_of_mem _ hx))
    have ha : a.id < r.id := h a (List.mem_cons_self _ _)
    show maxId (a :: (as ++ [r])) = some r.id
    unfold maxId
    rw [ih]
    show some (max a.id r.id) = some r.id
    rw [max_eq_right (le_of_lt ha)]

/-- When the query is executed and `max(id)` fits an `int64`, `Serial`
returns it with a nil error. -/
theorem Serial_of_maxId (d : SQLDepot) (m : Int) (hm : maxId d.database.certificates = some m)
    (hi : IsInt64 m) : Serial d none = .returned (m, none) := by
  simp [Serial, queryMaxId, scanInt64, hm, hi]

/-- A `Put` that returns a nil error appends one row, with the `id` the
database gave it. -/
theorem afterPut_certificates (lib : Lib) (d : SQLDepot) (c : PutCall)
    (h : (Put lib d c.assignedId c.execErr c.name c.certificate).2 = none) :
    ∃ row : CertRow, row.id = c.assignedId ∧
      (afterPut lib d c).database.certificates = d.database.certificates ++ [row] := by
  have hp : Put lib d c.assignedId c.execErr c.name c.certificate
      = (afterPut lib d c, none) := by
    rw [← h]; rfl
  obtain ⟨he, hs⟩ := Put_success lib d _ _ _ _ _ hp
  rw [he, Put_of_int64 lib d _ _ _ hs] at hp
  have h1 := (Prod.mk.inj hp).1
  exact ⟨_, rfl, by rw [← h1]⟩

/-- After each `Put` of a sequence of successful `Put` calls, `Serial` returns
the `id` of the row that `Put` wrote. -/
theorem serialAfterEachPut_eq (lib : Lib) : ∀ (calls : List PutCall) (d : SQLDepot),
    PutsSucceed lib d calls →
    serialAfterEachPut lib d calls
      = (calls.map (fun c => c.assignedId)).map (fun v => Outcome.returned (v, none))
  | [], _, _ => rfl
  | c :: cs, d, h => by
    obtain ⟨hp, hi, hlt, hrest⟩ := h
    obtain ⟨row, hid, hc⟩ := afterPut_certificates lib d c hp
    have hm : maxId (afterPut lib d c).database.certificates = some c.assignedId := by
      rw [hc, ← hid]
      exact maxId_append_greater _ _ (by rw [hid]; exact hlt)
    simp only [serialAfterEachPut, List.map_cons]
    rw [Serial_of_maxId _ _ hm hi, serialAfterEachPut_eq lib cs _ hrest]

/-- The ids given to the rows of a sequence of successful `Put` calls increase
strictly, starting above every `id` already in the table. -/
theorem assignedIds_chain (lib : Lib) : ∀ (calls : List PutCall) (d : SQLDepot) (m : Int),
    PutsSucceed lib d calls → (∃ r ∈ d.database.certificates, r.id = m) →
    List.Chain (· < ·) m (calls.map (fun c => c.assignedId))
  | [], _, _, _, _ => List.Chain.nil
  | c :: cs, d, m, h, hm => by
    obtain ⟨hp, _, hlt, hrest⟩ := h
    obtain ⟨row, hid, hc⟩ := afterPut_certificates lib d c hp
    obtain ⟨r, hr, hrm⟩ := hm
    refine List.Chain.cons (by rw [← hrm]; exact hlt r hr) ?_
    exact assignedIds_chain lib cs _ _ hrest ⟨row, by rw [hc]; simp, hid⟩

/-- Claim C4 (serial monotonicity).  Ids are values of a database sequence,
so they fit an `int64`.  On a table with at least one row, when the query is
executed, `Serial` returns the maximum `id` over all rows of `certificates`;
and for every sequence of successful `Put` calls with nothing in between,
each new row receiving an `id` greater than every `id` in the table, `Serial`
returns a value after each `Put`, and each value is strictly greater than the
value after the previous `Put`. -/
theorem Serial_monotone (lib : Lib) (d : SQLDepot) (calls : List PutCall)
    (hids : ∀ r ∈ d.database.certificates, IsInt64 r.id)
    (hs : PutsSucceed lib d calls) :
    (d.database.certificates ≠ [] →
      ∃ m, Serial d none = .returned (m, none) ∧
        (∃ r ∈ d.database.certificates, r.id = m) ∧
        ∀ r ∈ d.database.certificates, r.id ≤ m) ∧
    ∃ vals : List Int,
      serialAfterEachPut lib d calls = vals.map (fun v => Outcome.returned (v, none)) ∧
      vals.length = calls.length ∧
      List.Chain' (· < ·) vals := by
  constructor
  · intro hne
    obtain ⟨m, hm⟩ := maxId_isSome _ hne
    obtain ⟨⟨r, hr, hrm⟩, hle⟩ := maxId_spec _ _ hm
    exact ⟨m, Serial_of_maxId d m hm (hrm ▸ hids r hr), ⟨r, hr, hrm⟩, hle⟩
  · refine ⟨calls.map (fun c => c.assignedId), serialAfterEachPut_eq lib calls d hs, by simp, ?_⟩
    cases calls with
    | nil => exact List.chain'_nil
    | cons c cs =>
      obtain ⟨hp, _, _, hrest⟩ := hs
      obtain ⟨row, hid, hc⟩ := afterPut_certificates lib d c hp
      exact assignedIds_chain lib cs _ _ hrest ⟨row, by rw [hc]; simp, hid⟩

/-! ## The authority: proofs -/

/-- When `loadCA` returns, it returns nothing at all, an error alone, or a
certificate and a key with a nil error. -/
theorem loadCA_shape (lib : Lib) (d : SQLDepot) (q : Option GoError) (pass : Bytes)
    (r : CAResult) (h : loadCA lib d q pass = .returned r) :
    r = (none, none, none) ∨ (∃ e, r = (none, none, some e)) ∨
      (∃ c k, r = (some c, some k, none)) := by
  unfold loadCA at h
  repeat' split at h
  all_goals (cases h <;> simp)

/-- The result of `loadCA` depends on the depot through its database only. -/
theorem loadCA_congr (lib : Lib) (d d1 : SQLDepot) (q : Option GoError) (pass : Bytes)
    (h : d1.database = d.database) : loadCA lib d1 q pass = loadCA lib d q pass := by
  unfold loadCA
  rw [h]

/-- A call of `Put` does not touch the cached authority. -/
theorem Put_cache (lib : Lib) (d d1 : SQLDepot) (assignedId : Int)
    (execErr r : Option GoError) (name : String) (certificate : Certificate)
    (h : Put lib d assignedId execErr name certificate = (d1, r)) :
    d1.certificate = d.certificate ∧ d1.rsaKey = d.rsaKey := by
  unfold Put insertCertificate at h
  by_cases hs : IsInt64 certificate.SerialNumber
  · cases execErr <;> simp [hs] at h <;> (rw [← h.1]; exact ⟨rfl, rfl⟩)
  · simp [hs] at h
    rw [← h.1]; exact ⟨rfl, rfl⟩

/-- The result of `createCA` is an error, the cached authority being left
as it was, or a certificate and a key, which are then the cached authority. -/
theorem createCA_shape (lib : Lib) (d d1 : SQLDepot) (w : Ambient) (pass : Bytes)
    (years : Int) (cn org country : String) (r : CAResult)
    (h : createCA lib d w pass years cn org country = (d1, r)) :
    (∃ e, r = (none, none, some e) ∧ d1.certificate = d.certificate ∧ d1.rsaKey = d.rsaKey) ∨
      (∃ c k, r = (some c, some k, none) ∧ d1.certificate = some c ∧ d1.rsaKey = some k) := by
  unfold createCA at h
  repeat' split at h
  all_goals first
    | (cases h; simp; done)
    | (have hp := Put_cache _ _ _ _ _ _ _ _ ‹Put _ _ _ _ _ _ = _›
       cases h
       simp [hp.1, hp.2])

/-- When a call of `CreateOrLoadCA` returns, the cached authority is what the
call returned: nothing when it returned an error, the certificate and the
key otherwise. -/
theorem CreateOrLoadCA_cache (lib : Lib) (d d1 : SQLDepot) (w : Ambient) (pass : Bytes)
    (years : Int) (cn org country : String) (r : CAResult)
    (h : CreateOrLoadCA lib d w pass years cn org country = .returned (d1, r)) :
    (∃ e, r = (none, none, some e) ∧ d1.certificate = none ∧ d1.rsaKey = none) ∨
      (∃ c k, r = (some c, some k, none) ∧ d1.certificate = some c ∧ d1.rsaKey = some k) := by
  unfold CreateOrLoadCA at h
  cases hl : loadCA lib d w.queryErr pass with
  | panicked p => rw [hl] at h; cases h
  | returned r0 =>
    rw [hl] at h
    rcases loadCA_shape lib d _ pass r0 hl with h0 | ⟨e, h0⟩ | ⟨c, k, h0⟩
    · subst h0
      simp at h
      exact createCA_shape lib _ d1 w pass years cn org country r h
    · subst h0
      simp at h
      obtain ⟨h1, h2⟩ := h
      subst h1; subst h2
      exact Or.inl ⟨e, rfl, rfl, rfl⟩
    · subst h0
      simp at h
      obtain ⟨h1, h2⟩ := h
      subst h1; subst h2
      exact Or.inr ⟨c, k, rfl, rfl, rfl⟩

/-- On a depot whose cached authority is what a call returned, `CA` is
`cachedAuthority` of that result. -/
theorem CA_eq_cachedAuthority (d : SQLDepot) (pass : Bytes) (r : CAResult)
    (h : (∃ e, r = (none, none, some e) ∧ d.certificate = none ∧ d.rsaKey = none) ∨
      (∃ c k, r = (some c, some k, none) ∧ d.certificate = some c ∧ d.rsaKey = some k)) :
    CA d pass = cachedAuthority (some r) := by
  rcases h with ⟨e, hr, hc, hk⟩ | ⟨c, k, hr, hc, hk⟩
  · simp [CA, cachedAuthority, hr, hc, hk]
  · simp [CA, cachedAuthority, hr, hc, hk]

/-- After a sequence of `CreateOrLoadCA` calls, `CA` is decided by what the
last call returned, and by the depot before the run when there was no call. -/
theorem runCreateOrLoadCA_last (lib : Lib) : ∀ (calls : List CACall) (d d2 : SQLDepot)
    (rs : List CAResult) (pass : Bytes),
    runCreateOrLoadCA lib d calls = .returned (d2, rs) →
    rs.length = calls.length ∧
    CA d2 pass = match rs.getLast? with
      | none => CA d pass
      | some r => cachedAuthority (some r)
  | [], d, d2, rs, pass, h => by
    simp [runCreateOrLoadCA] at h
    obtain ⟨h1, h2⟩ := h
    subst h1; subst h2
    simp
  | c :: cs, d, d2, rs, pass, h => by
    unfold runCreateOrLoadCA at h
    cases h1 : CreateOrLoadCA lib d c.w c.pass c.years c.cn c.org c.country with
    | panicked p => rw [h1] at h; cases h
    | returned v =>
      obtain ⟨d1, r⟩ := v
      rw [h1] at h
      dsimp only at h
      cases h2 : runCreateOrLoadCA lib d1 cs with
      | panicked p => rw [h2] at h; cases h
      | returned v2 =>
        obtain ⟨d3, rs3⟩ := v2
        rw [h2] at h
        simp at h
        obtain ⟨h3, h4⟩ := h
        subst h3; subst h4
        obtain ⟨hlen, ih⟩ := runCreateOrLoadCA_last lib cs d1 d3 rs3 pass h2
        refine ⟨by simp [hlen], ?_⟩
        rw [ih]
        cases rs3 with
        | nil =>
          simp
          exact CA_eq_cachedAuthority d1 pass r (CreateOrLoadCA_cache lib d d1 c.w _ _ _ _ _ r h1)
        | cons a as =>
          rw [List.getLast?_cons_cons, List.getLast?_eq_getLast _ (List.cons_ne_nil a as)]

/-- A certificate row whose `id` is not 1 is not in the join. -/
theorem joinKeys_nil_of_id (c : CertRow) (hc : c.id ≠ 1) :
    ∀ ks : List KeyRow, joinKeys c ks = []
  | [] => rfl
  | k :: ks => by
    unfold joinKeys
    rw [if_neg (fun h => hc h.2)]
    exact joinKeys_nil_of_id c hc ks

/-- Without a key row for certificate 1 the join of a row is empty. -/
theorem joinKeys_nil_of_keys (c : CertRow) :
    ∀ ks : List KeyRow, (∀ k ∈ ks, k.certificate_id ≠ 1) → joinKeys c ks = []
  | [], _ => rfl
  | k :: ks, h => by
    unfold joinKeys
    rw [if_neg (fun (hk : c.id = k.certificate_id ∧ c.id = 1) =>
      h k (List.mem_cons_self _ _) (hk.1 ▸ hk.2))]
    exact joinKeys_nil_of_keys c ks (fun x hx => h x (List.mem_cons_of_mem _ hx))

/-- The join of a certificate row with a non-empty list of key rows. -/
theorem joinKeys_cons (c : CertRow) (k : KeyRow) (ks : List KeyRow) :
    joinKeys c (k :: ks) =
      if c.id = k.certificate_id ∧ c.id = 1 then
        (c.certificate_pem, k.key_pem) :: joinKeys c ks
      else joinKeys c ks := rfl

/-- The rows of the query on a non-empty `certificates`. -/
theorem authorityRows_cons (keys : List KeyRow) (c : CertRow) (cs : List CertRow) :
    authorityRows keys (c :: cs) = joinKeys c keys ++ authorityRows keys cs := rfl

/-- The join distributes over appended key rows. -/
theorem joinKeys_append (c : CertRow) (ks2 : List KeyRow) :
    ∀ ks : List KeyRow, joinKeys c (ks ++ ks2) = joinKeys c ks ++ joinKeys c ks2 := by
  intro ks
  induction ks with
  | nil => rfl
  | cons k ks ih =>
    by_cases hk : c.id = k.certificate_id ∧ c.id = 1
    · rw [List.cons_append, joinKeys_cons, joinKeys_cons, if_pos hk, if_pos hk, ih]
      rfl
    · rw [List.cons_append, joinKeys_cons, joinKeys_cons, if_neg hk, if_neg hk, ih]

/-- Without a certificate row of `id` 1 the query has no row. -/
theorem authorityRows_nil_of_ids (keys : List KeyRow) :
    ∀ cs : List CertRow, (∀ c ∈ cs, c.id ≠ 1) → authorityRows keys cs = []
  | [], _ => rfl
  | c :: cs, h => by
    unfold authorityRows
    rw [joinKeys_nil_of_id c (h c (List.mem_cons_self _ _)) keys,
      authorityRows_nil_of_ids keys cs (fun x hx => h x (List.mem_cons_of_mem _ hx))]
    rfl

/-- The rows of the query distribute over appended certificate rows. -/
theorem authorityRows_append (keys : List KeyRow) (cs2 : List CertRow) :
    ∀ cs : List CertRow,
      authorityRows keys (cs ++ cs2) = authorityRows keys cs ++ authorityRows keys cs2 := by
  intro cs
  induction cs with
  | nil => rfl
  | cons c cs ih =>
    rw [List.cons_append, authorityRows_cons, authorityRows_cons, ih, List.append_assoc]

/-- In a store that held no certificate of `id` 1 and no key row for
certificate 1, after a certificate row of `id` 1 and a key row for
certificate 1 are appended the query has exactly one row: that pair. -/
theorem authorityRows_created (cs : List CertRow) (ks : List KeyRow) (row : CertRow)
    (keyPem : Bytes) (hid : row.id = 1) (hcs : ∀ c ∈ cs, c.id ≠ 1)
    (hks : ∀ k ∈ ks, k.certificate_id ≠ 1) :
    authorityRows (ks ++ [⟨1, keyPem⟩]) (cs ++ [row]) = [(row.certificate_pem, keyPem)] := by
  rw [authorityRows_append, authorityRows_nil_of_ids _ cs hcs]
  show joinKeys row (ks ++ [⟨1, keyPem⟩]) ++ [] = _
  rw [joinKeys_append, joinKeys_nil_of_keys row ks hks]
  simp [joinKeys, hid]

/-- The function `loadCA` returns nothing at all only when the query
reported `sql.ErrNoRows`. -/
theorem loadCA_none (lib : Lib) (d : SQLDepot) (q : Option GoError) (pass : Bytes)
    (h : loadCA lib d q pass = .returned (none, none, none)) :
    queryAuthority d.database q = .error GoError.ErrNoRows := by
  unfold loadCA at h
  repeat' split at h
  all_goals first
    | (cases h; done)
    | (rename_i e heq he; rw [heq, he])

/-- The function `loadCA` returns a certificate and a key only when the
query was executed and had a row. -/
theorem loadCA_some (lib : Lib) (d : SQLDepot) (q : Option GoError) (pass : Bytes)
    (c : Certificate) (k : PrivateKey)
    (h : loadCA lib d q pass = .returned (some c, some k, none)) :
    q = none ∧ authorityRows d.database.ca_keys d.database.certificates ≠ [] := by
  unfold loadCA at h
  cases hq : queryAuthority d.database q with
  | error e =>
    rw [hq] at h
    dsimp only at h
    split at h <;> cases h
  | ok row =>
    unfold queryAuthority at hq
    cases q with
    | some e => simp at hq
    | none =>
      refine ⟨rfl, ?_⟩
      intro hn
      rw [hn] at hq
      simp at hq

/-- A successful `createCA` has generated the key it returns, parsed the
certificate it returns, appended one row to `certificates` holding the
encoded certificate and one row `(1, encoded encrypted key)` to `ca_keys`,
and cached the pair. -/
theorem createCA_success (lib : Lib) (d d1 : SQLDepot) (w : Ambient) (pass : Bytes)
    (years : Int) (cn org country : String) (cert : Certificate) (key : PrivateKey)
    (h : createCA lib d w pass years cn org country = (d1, (some cert, some key, none))) :
    ∃ (raw : Bytes) (blk : PemBlock) (row : CertRow),
      lib.generateKey w.keyRand 2048 = .ok key ∧
      lib.parseCertificate raw = .ok cert ∧
      lib.encryptPEMBlock w.encryptRand "RSA PRIVATE KEY"
        (lib.marshalPKCS1PrivateKey key) pass = .ok blk ∧
      row.id = w.assignedId ∧
      row.certificate_pem = lib.pemEncodeToMemory ⟨"CERTIFICATE", [], cert.Raw⟩ ∧
      d1 = { database :=
              { certificates := d.database.certificates ++ [row],
                ca_keys := d.database.ca_keys ++ [⟨1, lib.pemEncodeToMemory blk⟩],
                challenges := d.database.challenges },
             certificate := some cert, rsaKey := some key } := by
  unfold createCA at h
  cases hg : lib.generateKey w.keyRand 2048 with
  | error e => rw [hg] at h; cases h
  | ok privKey =>
    rw [hg] at h; dsimp only at h
    cases hss : lib.selfSign w.signRand years org cn country privKey with
    | error e => rw [hss] at h; cases h
    | ok raw =>
      rw [hss] at h; dsimp only at h
      cases hpc : lib.parseCertificate raw with
      | error e => rw [hpc] at h; cases h
      | ok certificate =>
        rw [hpc] at h; dsimp only at h
        cases hput : Put lib d w.assignedId w.putErr certificate.SubjectCommonName certificate with
        | mk dp perr =>
          rw [hput] at h
          cases perr with
          | some e => cases h
          | none =>
            dsimp only at h
            obtain ⟨he, hs⟩ := Put_success lib d dp _ _ _ _ hput
            rw [he, Put_of_int64 lib d _ _ _ hs] at hput
            have hdp := (Prod.mk.inj hput).1
            cases henc : lib.encryptPEMBlock w.encryptRand "RSA PRIVATE KEY"
                (lib.marshalPKCS1PrivateKey privKey) pass with
            | error e => rw [henc] at h; cases h
            | ok blk =>
              rw [henc] at h; dsimp only at h
              unfold insertCaKey at h
              cases hk : w.insertKeyErr with
              | some e => rw [hk] at h; cases h
              | none =>
                rw [hk] at h
                dsimp only at h
                have h1 := (Prod.mk.inj h).1
                have h2 := (Prod.mk.inj h).2
                simp only [Prod.mk.injEq, Option.some.injEq, and_true] at h2
                obtain ⟨hc, hkey⟩ := h2
                subst hc; subst hkey
                refine ⟨raw, blk,
                  ⟨w.assignedId,
                    if certificate.SubjectCommonName = "" then
                      String.mk (sprintfHex (lib.sum256 certificate.Raw))
                    else certificate.SubjectCommonName,
                    certificate.NotBefore, certificate.NotAfter,
                    lib.pemEncodeToMemory ⟨"CERTIFICATE", [], certificate.Raw⟩⟩,
                  rfl, hpc, henc, rfl, rfl, ?_⟩
                rw [← h1, ← hdp]

/-- Under the round trips of `CodecLaws`, `loadCA` on a store whose first
authority row holds the encoding of a parsed certificate and the encoding of
the encrypted generated key returns that certificate and that key. -/
theorem loadCA_stored (lib : Lib) (laws : CodecLaws lib) (d : SQLDepot) (pass : Bytes)
    (raw seed seed2 : Bytes) (bits : Nat) (cert : Certificate) (key : PrivateKey)
    (blk : PemBlock) (rest : List (Bytes × Bytes))
    (hrows : authorityRows d.database.ca_keys d.database.certificates =
      (lib.pemEncodeToMemory ⟨"CERTIFICATE", [], cert.Raw⟩, lib.pemEncodeToMemory blk) :: rest)
    (hparse : lib.parseCertificate raw = .ok cert)
    (hgen : lib.generateKey seed bits = .ok key)
    (henc : lib.encryptPEMBlock seed2 "RSA PRIVATE KEY"
      (lib.marshalPKCS1PrivateKey key) pass = .ok blk) :
    loadCA lib d none pass = .returned (some cert, some key, none) := by
  have hraw := laws.raw_of_parse raw cert hparse
  obtain ⟨blk1, hdec, hienc, hdcr⟩ := laws.decrypt_encrypt _ _ _ _ henc
  have hpk := laws.parse_marshal _ _ _ hgen
  unfold loadCA queryAuthority
  rw [hrows]
  simp only [laws.decode_certificate, hdec, hraw, hparse, hienc, hdcr, hpk]
  simp

/-- Claim C3 (bootstrap idempotence), amended.  Let a first `CreateOrLoadCA`
call succeed from a store that either already holds an authority row, read
by a query that reports no error, or holds no certificate with `id` 1 and no
key row for certificate 1 while the certificate row the call writes receives
`id` 1.  Then, under the round trips of `CodecLaws`, a second call with the
same passphrase (and any other arguments) whose query reports no error
returns the same certificate and the same private key, and leaves the depot,
so every table, exactly as the first call left it. -/
theorem CreateOrLoadCA_idempotent (lib : Lib) (laws : CodecLaws lib) (d d1 : SQLDepot)
    (w1 w2 : Ambient) (pass : Bytes) (years years2 : Int)
    (cn org country cn2 org2 country2 : String) (cert : Certificate) (key : PrivateKey)
    (h1 : CreateOrLoadCA lib d w1 pass years cn org country
      = .returned (d1, (some cert, some key, none)))
    (hstore : AuthorityAtOne d.database w1)
    (hq2 : w2.queryErr = none) :
    CreateOrLoadCA lib d1 w2 pass years2 cn2 org2 country2
      = .returned (d1, (some cert, some key, none)) := by
  have hload : loadCA lib d1 none pass = .returned (some cert, some key, none) ∧
      d1.certificate = some cert ∧ d1.rsaKey = some key := by
    unfold CreateOrLoadCA at h1
    cases hl : loadCA lib d w1.queryErr pass with
    | panicked p => rw [hl] at h1; cases h1
    | returned r0 =>
      rw [hl] at h1
      rcases loadCA_shape lib d _ pass r0 hl with h0 | ⟨e, h0⟩ | ⟨c, k, h0⟩
      · subst h0
        simp at h1
        obtain ⟨raw, blk, row, hgen, hparse, henc, hid, hpem, hd1⟩ :=
          createCA_success lib _ d1 w1 pass years cn org country cert key h1
        rcases hstore with ⟨hne, hq⟩ | ⟨hcs, hks, hone⟩
        · have := loadCA_none lib d _ pass hl
          rw [hq] at this
          unfold queryAuthority at this
          cases hr : authorityRows d.database.ca_keys d.database.certificates with
          | nil => exact absurd hr hne
          | cons a as => rw [hr] at this; cases this
        · refine ⟨?_, by rw [hd1], by rw [hd1]⟩
          have hrows := authorityRows_created d.database.certificates d.database.ca_keys row
            (lib.pemEncodeToMemory blk) (hid.trans hone) hcs hks
          rw [hpem] at hrows
          exact loadCA_stored lib laws d1 pass raw _ _ _ cert key blk []
            (by rw [hd1]; exact hrows) hparse hgen henc
      · subst h0
        simp at h1
      · subst h0
        simp at h1
        obtain ⟨hd, hc, hk⟩ := h1
        subst hc; subst hk
        obtain ⟨hq, _⟩ := loadCA_some lib d _ pass c k hl
        rw [hq] at hl
        refine ⟨?_, by rw [← hd], by rw [← hd]⟩
        rw [loadCA_congr lib d d1 none pass (by rw [← hd])]
        exact hl
  obtain ⟨hl, hc, hk⟩ := hload
  unfold CreateOrLoadCA
  rw [hq2, hl]
  simp
  cases d1
  simp at hc hk
  simp [hc, hk]

/-- The byte of the value of a byte is that byte. -/
theorem byteOfNat_val (b : Fin 256) : byteOfNat b.val = b := by
  apply Fin.ext
  simp [byteOfNat, Nat.mod_eq_of_lt b.isLt]

/-- The instance `demoLib` has the round trips of `CodecLaws`. -/
theorem demoLib_codecLaws : CodecLaws demoLib where
  raw_of_parse := by
    intro raw c h
    cases raw with
    | nil => simp [demoLib, demoParseCertificate] at h
    | cons b bs =>
      simp only [demoLib, demoParseCertificate, Except.ok.injEq] at h
      rw [← h]
  decode_certificate := by
    intro raw
    simp [demoLib, demoEncode, demoDecode]
  decrypt_encrypt := by
    intro seed data pass blk h
    simp only [demoLib, Except.ok.injEq] at h
    subst h
    refine ⟨⟨"RSA PRIVATE KEY", demoHeaders, byteOfNat pass.length :: data⟩, ?_, ?_, ?_⟩
    · simp [demoLib, demoEncode, demoDecode, demoHeaders]
    · rfl
    · simp [demoLib, demoDecrypt]
  parse_marshal := by
    intro seed bits k h
    simp only [demoLib, Except.ok.injEq] at h
    subst h
    simp [demoLib, demoParseKey, byteOfNat_val]


/-- Claim C3 fails as stated.  The store holds one certificate row, of
`id` 1, written by a `Put` before any authority existed, and no key row; the
library `demoLib` has every round trip of `CodecLaws`.  The first call
succeeds: it finds no authority row, creates the authority, whose certificate
row receives `id` 2, and writes the key row for certificate 1.  The second
call, same passphrase, no storage error, joins the key to the row of `id` 1
and returns that other certificate. -/
theorem CreateOrLoadCA_second_call_differs :
    CodecLaws demoLib ∧
    CreateOrLoadCA demoLib (SqlDepot ⟨[⟨1, "device", 0, 10, [0, 5, 5]⟩], [], []⟩)
        ⟨none, [7], [3, 4], [], 2, none, none⟩ [1, 2] 10 "Test CA" "Acme" "US"
      = .returned
          ({ database :=
              ⟨[⟨1, "device", 0, 10, [0, 5, 5]⟩, ⟨2, "Test CA", 0, 10, [0, 3, 4]⟩],
                [⟨1, [1, 2, 7]⟩], []⟩,
             certificate := some ⟨[3, 4], "Test CA", 1, 0, 10⟩,
             rsaKey := some ⟨7, 65537, 1, []⟩ },
            (some ⟨[3, 4], "Test CA", 1, 0, 10⟩, some ⟨7, 65537, 1, []⟩, none)) ∧
    CreateOrLoadCA demoLib
        { database :=
            ⟨[⟨1, "device", 0, 10, [0, 5, 5]⟩, ⟨2, "Test CA", 0, 10, [0, 3, 4]⟩],
              [⟨1, [1, 2, 7]⟩], []⟩,
          certificate := some ⟨[3, 4], "Test CA", 1, 0, 10⟩,
          rsaKey := some ⟨7, 65537, 1, []⟩ }
        ⟨none, [8], [6], [], 3, none, none⟩ [1, 2] 10 "Test CA" "Acme" "US"
      = .returned
          ({ database :=
              ⟨[⟨1, "device", 0, 10, [0, 5, 5]⟩, ⟨2, "Test CA", 0, 10, [0, 3, 4]⟩],
                [⟨1, [1, 2, 7]⟩], []⟩,
             certificate := some ⟨[5, 5], "Test CA", 1, 0, 10⟩,
             rsaKey := some ⟨7, 65537, 1, []⟩ },
            (some ⟨[5, 5], "Test CA", 1, 0, 10⟩, some ⟨7, 65537, 1, []⟩, none)) ∧
    (⟨[5, 5], "Test CA", 1, 0, 10⟩ : Certificate) ≠ ⟨[3, 4], "Test CA", 1, 0, 10⟩ :=
  ⟨demoLib_codecLaws, by decide, by decide, by decide⟩

/-- Claim C3, amended, on the empty store: the first call creates the
authority with certificate `id` 1, the second loads the same pair and writes
nothing. -/
theorem CreateOrLoadCA_idempotent_witness :
    CreateOrLoadCA demoLib (SqlDepot ⟨[], [], []⟩)
        ⟨none, [7], [3, 4], [], 1, none, none⟩ [1, 2] 10 "Test CA" "Acme" "US"
      = .returned
          ({ database := ⟨[⟨1, "Test CA", 0, 10, [0, 3, 4]⟩], [⟨1, [1, 2, 7]⟩], []⟩,
             certificate := some ⟨[3, 4], "Test CA", 1, 0, 10⟩,
             rsaKey := some ⟨7, 65537, 1, []⟩ },
            (some ⟨[3, 4], "Test CA", 1, 0, 10⟩, some ⟨7, 65537, 1, []⟩, none)) ∧
    AuthorityAtOne (SqlDepot ⟨[], [], []⟩).database ⟨none, [7], [3, 4], [], 1, none, none⟩ ∧
    CreateOrLoadCA demoLib
        { database := ⟨[⟨1, "Test CA", 0, 10, [0, 3, 4]⟩], [⟨1, [1, 2, 7]⟩], []⟩,
          certificate := some ⟨[3, 4], "Test CA", 1, 0, 10⟩,
          rsaKey := some ⟨7, 65537, 1, []⟩ }
        ⟨none, [8], [6], [], 2, none, none⟩ [1, 2] 5 "Other CA" "Acme" "US"
      = .returned
          ({ database := ⟨[⟨1, "Test CA", 0, 10, [0, 3, 4]⟩], [⟨1, [1, 2, 7]⟩], []⟩,
             certificate := some ⟨[3, 4], "Test CA", 1, 0, 10⟩,
             rsaKey := some ⟨7, 65537, 1, []⟩ },
            (some ⟨[3, 4], "Test CA", 1, 0, 10⟩, some ⟨7, 65537, 1, []⟩, none)) :=
  have h1 : CreateOrLoadCA demoLib (SqlDepot ⟨[], [], []⟩)
        ⟨none, [7], [3, 4], [], 1, none, none⟩ [1, 2] 10 "Test CA" "Acme" "US"
      = .returned
          ({ database := ⟨[⟨1, "Test CA", 0, 10, [0, 3, 4]⟩], [⟨1, [1, 2, 7]⟩], []⟩,
             certificate := some ⟨[3, 4], "Test CA", 1, 0, 10⟩,
             rsaKey := some ⟨7, 65537, 1, []⟩ },
            (some ⟨[3, 4], "Test CA", 1, 0, 10⟩, some ⟨7, 65537, 1, []⟩, none)) := by decide
  have h2 : AuthorityAtOne (SqlDepot ⟨[], [], []⟩).database
      ⟨none, [7], [3, 4], [], 1, none, none⟩ :=
    Or.inr ⟨by simp [SqlDepot], by simp [SqlDepot], rfl⟩
  ⟨h1, h2, CreateOrLoadCA_idempotent demoLib demoLib_codecLaws _ _ _
    ⟨none, [8], [6], [], 2, none, none⟩ _ _ 5 _ _ _ "Other CA" "Acme" "US" _ _ h1 h2 rfl⟩

/-- Every call of a sequence of `CreateOrLoadCA` calls returned an error
alone or a certificate and a key with a nil error. -/
theorem runCreateOrLoadCA_shapes (lib : Lib) : ∀ (calls : List CACall) (d d2 : SQLDepot)
    (rs : List CAResult), runCreateOrLoadCA lib d calls = .returned (d2, rs) →
    ∀ r ∈ rs, (∃ e, r = (none, none, some e)) ∨ ∃ c k, r = (some c, some k, none)
  | [], d, d2, rs, h => by
    simp [runCreateOrLoadCA] at h
    intro r hr
    rw [h.2] at hr
    cases hr
  | c :: cs, d, d2, rs, h => by
    unfold runCreateOrLoadCA at h
    cases h1 : CreateOrLoadCA lib d c.w c.pass c.years c.cn c.org c.country with
    | panicked p => rw [h1] at h; cases h
    | returned v =>
      obtain ⟨d1, r1⟩ := v
      rw [h1] at h
      dsimp only at h
      cases h2 : runCreateOrLoadCA lib d1 cs with
      | panicked p => rw [h2] at h; cases h
      | returned v2 =>
        obtain ⟨d3, rs3⟩ := v2
        rw [h2] at h
        simp at h
        obtain ⟨_, h4⟩ := h
        subst h4
        intro r hr
        rcases List.mem_cons.mp hr with hr | hr
        · subst hr
          rcases CreateOrLoadCA_cache lib d d1 c.w _ _ _ _ _ r h1 with ⟨e, he, _⟩ | ⟨x, k, hx, _⟩
          · exact Or.inl ⟨e, he⟩
          · exact Or.inr ⟨x, k, hx⟩
        · exact runCreateOrLoadCA_shapes lib cs d1 d3 rs3 h2 r hr

/-- Claim C10 (cached authority), amended.  After every sequence of
`CreateOrLoadCA` calls on a depot returned by `SqlDepot`, each call having
returned, `CA(pass)` for any `pass` returns the error "CA certificate or
rsaKey is empty" when no call was made or the latest call returned an error,
and returns the one-element list of the certificate and the key that the
latest call returned when that call succeeded.  Each call returned either an
error alone or a certificate and a key. -/
theorem CA_returns_latest (lib : Lib) (db : Database) (calls : List CACall)
    (d2 : SQLDepot) (rs : List CAResult) (pass : Bytes)
    (h : runCreateOrLoadCA lib (SqlDepot db) calls = .returned (d2, rs)) :
    rs.length = calls.length ∧
    (rs.getLast? = none →
      CA d2 pass = ([], none, some (GoError.errorsNew "CA certificate or rsaKey is empty"))) ∧
    (∀ e, rs.getLast? = some (none, none, some e) →
      CA d2 pass = ([], none, some (GoError.errorsNew "CA certificate or rsaKey is empty"))) ∧
    (∀ c k, rs.getLast? = some (some c, some k, none) →
      CA d2 pass = ([c], some k, none)) ∧
    (∀ r ∈ rs, (∃ e, r = (none, none, some e)) ∨ ∃ c k, r = (some c, some k, none)) := by
  obtain ⟨hlen, hca⟩ := runCreateOrLoadCA_last lib calls (SqlDepot db) d2 rs pass h
  refine ⟨hlen, ?_, ?_, ?_, ?_⟩
  · intro hn
    rw [hca, hn]
    rfl
  · intro e he
    rw [hca, he]
    rfl
  · intro c k he
    rw [hca, he]
    rfl
  · exact runCreateOrLoadCA_shapes lib calls (SqlDepot db) d2 rs h

/-- Claim C10, amended, after one successful call on the empty store. -/
theorem CA_returns_latest_witness :
    runCreateOrLoadCA demoLib (SqlDepot ⟨[], [], []⟩)
        [⟨⟨none, [7], [3, 4], [], 1, none, none⟩, [1, 2], 10, "Test CA", "Acme", "US"⟩]
      = .returned
          ({ database := ⟨[⟨1, "Test CA", 0, 10, [0, 3, 4]⟩], [⟨1, [1, 2, 7]⟩], []⟩,
             certificate := some ⟨[3, 4], "Test CA", 1, 0, 10⟩,
             rsaKey := some ⟨7, 65537, 1, []⟩ },
            [(some ⟨[3, 4], "Test CA", 1, 0, 10⟩, some ⟨7, 65537, 1, []⟩, none)]) ∧
    CA { database := ⟨[⟨1, "Test CA", 0, 10, [0, 3, 4]⟩], [⟨1, [1, 2, 7]⟩], []⟩,
         certificate := some ⟨[3, 4], "Test CA", 1, 0, 10⟩,
         rsaKey := some ⟨7, 65537, 1, []⟩ } [9]
      = ([⟨[3, 4], "Test CA", 1, 0, 10⟩], some ⟨7, 65537, 1, []⟩, none) :=
  have h : runCreateOrLoadCA demoLib (SqlDepot ⟨[], [], []⟩)
        [⟨⟨none, [7], [3, 4], [], 1, none, none⟩, [1, 2], 10, "Test CA", "Acme", "US"⟩]
      = .returned
          ({ database := ⟨[⟨1, "Test CA", 0, 10, [0, 3, 4]⟩], [⟨1, [1, 2, 7]⟩], []⟩,
             certificate := some ⟨[3, 4], "Test CA", 1, 0, 10⟩,
             rsaKey := some ⟨7, 65537, 1, []⟩ },
            [(some ⟨[3, 4], "Test CA", 1, 0, 10⟩, some ⟨7, 65537, 1, []⟩, none)]) := rfl
  ⟨h, (CA_returns_latest demoLib _ _ _ _ [9] h).2.2.2.1 _ _ rfl⟩

/-- Claim C10 fails as stated.  On the empty store a first `CreateOrLoadCA`
call succeeds; a second call, whose query reports a storage error, returns
that error and clears the cached authority: `CA` then returns the error
"CA certificate or rsaKey is empty" although a call has succeeded. -/
theorem CA_fails_after_failed_call :
    ∃ d2 : SQLDepot,
      runCreateOrLoadCA demoLib (SqlDepot ⟨[], [], []⟩)
          [⟨⟨none, [7], [3, 4], [], 1, none, none⟩, [1, 2], 10, "Test CA", "Acme", "US"⟩,
           ⟨⟨some (GoError.storage "connection lost"), [8], [6], [], 2, none, none⟩,
             [1, 2], 10, "Test CA", "Acme", "US"⟩]
        = .returned
            (d2, [(some ⟨[3, 4], "Test CA", 1, 0, 10⟩, some ⟨7, 65537, 1, []⟩, none),
                  (none, none, some (GoError.storage "connection lost"))]) ∧
      CA d2 [1, 2]
        = ([], none, some (GoError.errorsNew "CA certificate or rsaKey is empty")) :=
  ⟨{ database := ⟨[⟨1, "Test CA", 0, 10, [0, 3, 4]⟩], [⟨1, [1, 2, 7]⟩], []⟩,
     certificate := none, rsaKey := none }, rfl, rfl⟩

/-- When the stored certificate text holds no PEM block, `pem.Decode`
returns the nil block and `CreateOrLoadCA` panics on `block.Type`. -/
theorem loadCA_panics_without_block (lib : Lib) (d : SQLDepot) (w : Ambient) (pass : Bytes)
    (years : Int) (cn org country : String) (pemCert pemKey : Bytes)
    (rest : List (Bytes × Bytes)) (hq : w.queryErr = none)
    (hrows : authorityRows d.database.ca_keys d.database.certificates
      = (pemCert, pemKey) :: rest)
    (hdec : lib.pemDecode pemCert = none) :
    CreateOrLoadCA lib d w pass years cn org country
      = .panicked PanicValue.nilDereference := by
  simp [CreateOrLoadCA, loadCA, queryAuthority, hq, hrows, hdec]

/-- When the stored certificate is well formed and the stored key text holds
no PEM block, `CreateOrLoadCA` panics in `x509.IsEncryptedPEMBlock`. -/
theorem loadCA_panics_without_key_block (lib : Lib) (d : SQLDepot) (w : Ambient) (pass : Bytes)
    (years : Int) (cn org country : String) (pemCert pemKey : Bytes)
    (rest : List (Bytes × Bytes)) (raw : Bytes) (certificate : Certificate)
    (hq : w.queryErr = none)
    (hrows : authorityRows d.database.ca_keys d.database.certificates
      = (pemCert, pemKey) :: rest)
    (hdec : lib.pemDecode pemCert = some ⟨"CERTIFICATE", [], raw⟩)
    (hparse : lib.parseCertificate raw = .ok certificate)
    (hkey : lib.pemDecode pemKey = none) :
    CreateOrLoadCA lib d w pass years cn org country
      = .panicked PanicValue.nilDereference := by
  simp [CreateOrLoadCA, loadCA, queryAuthority, hq, hrows, hdec, hparse, hkey]

/-- Claim C9 (stored-data integrity) at the failing inputs.  The authority
row of the store holds a certificate text, respectively a key text, in which
`pem.Decode` finds no block (the bytes `[9, 9]` for `demoLib`): the call
`CreateOrLoadCA` does not return an error, it panics with a nil dereference. -/
theorem CreateOrLoadCA_panics_on_stored_text :
    demoLib.pemDecode [9, 9] = none ∧
    CreateOrLoadCA demoLib
        (SqlDepot ⟨[⟨1, "Test CA", 0, 10, [9, 9]⟩], [⟨1, [1, 2, 7]⟩], []⟩)
        ⟨none, [7], [3, 4], [], 2, none, none⟩ [1, 2] 10 "Test CA" "Acme" "US"
      = .panicked PanicValue.nilDereference ∧
    CreateOrLoadCA demoLib
        (SqlDepot ⟨[⟨1, "Test CA", 0, 10, [0, 3, 4]⟩], [⟨1, [9, 9]⟩], []⟩)
        ⟨none, [7], [3, 4], [], 2, none, none⟩ [1, 2] 10 "Test CA" "Acme" "US"
      = .panicked PanicValue.nilDereference :=
  ⟨by decide, by decide, by decide⟩

/-- Claim C5 (failures are returned) at the failing inputs.  Whenever the
query of `Serial` reports an error, `Serial` panics with that error instead
of returning it; and on a store without certificates, where `max(id)` is
`NULL` and `Scan` reports an error, `Serial` panics as well. -/
theorem Serial_panics_on_failure :
    (∀ (d : SQLDepot) (e : GoError), Serial d (some e) = .panicked (PanicValue.err e)) ∧
    (∀ (keys : List KeyRow) (challenges : List String),
      Serial (SqlDepot ⟨[], keys, challenges⟩) none
        = .panicked (PanicValue.err
            (GoError.scan "converting NULL to int64 is unsupported"))) :=
  ⟨fun _ _ => rfl, fun _ _ => rfl⟩

/-- Claim C6 (`HasCN` by name) at the failing inputs.  The result of `HasCN`
does not depend on `cn`: the query is bound to the literal "ca".  With one
row named "ca", `HasCN("device-1")` is true although no row is named
"device-1"; with one row named "device-1" it is false. -/
theorem HasCN_ignores_cn :
    (∀ (d : SQLDepot) (q : Option GoError) (cn cn2 : String) (allowTime : Int)
        (cert : Option Certificate) (revoke : Bool),
      HasCN d q cn allowTime cert revoke = HasCN d q cn2 allowTime cert revoke) ∧
    HasCN (SqlDepot ⟨[⟨1, "ca", 0, 10, [0, 3, 4]⟩], [], []⟩) none "device-1" 0 none false
      = (true, none) ∧
    HasCN (SqlDepot ⟨[⟨1, "device-1", 0, 10, [0, 3, 4]⟩], [], []⟩) none "device-1" 0 none false
      = (false, none) :=
  ⟨fun _ _ _ _ _ _ _ => rfl, by decide, by decide⟩

/-! ## Concrete instances -/

/-- Claim C1 on a store with one pending secret: the issued secret is
redeemed once. -/
theorem challenge_single_use_witness :
    SCEPChallenge demoLib (SqlDepot ⟨[], [], ["0101"]⟩)
        (fun n => .ok (List.replicate n 7)) none
      = ({ database :=
            ⟨[], [], ["0101", "070707070707070707070707070707070707070707070707"]⟩,
           certificate := none, rsaKey := none },
         ("070707070707070707070707070707070707070707070707", none)) ∧
    (HasChallenge
        { database :=
            ⟨[], [], ["0101", "070707070707070707070707070707070707070707070707"]⟩,
          certificate := none, rsaKey := none } none none
        "070707070707070707070707070707070707070707070707").2 = (true, none) :=
  have h : SCEPChallenge demoLib (SqlDepot ⟨[], [], ["0101"]⟩)
        (fun n => .ok (List.replicate n 7)) none
      = ({ database :=
            ⟨[], [], ["0101", "070707070707070707070707070707070707070707070707"]⟩,
           certificate := none, rsaKey := none },
         ("070707070707070707070707070707070707070707070707", none)) := by decide
  ⟨h, (challenge_single_use demoLib _ _ _ _ _ h).1⟩

/-- Claim C2 on the table `a`, `b`: redeeming `a` erases that row. -/
theorem HasChallenge_redeems_witness :
    (SqlDepot ⟨[], [], ["a", "b"]⟩).database.challenges.Nodup ∧
    (HasChallenge (SqlDepot ⟨[], [], ["a", "b"]⟩) none none "a").1
      = { SqlDepot ⟨[], [], ["a", "b"]⟩ with
          database := { (SqlDepot ⟨[], [], ["a", "b"]⟩).database with
            challenges := (SqlDepot ⟨[], [], ["a", "b"]⟩).database.challenges.erase "a" } } :=
  ⟨by decide, (HasChallenge_redeems (SqlDepot ⟨[], [], ["a", "b"]⟩) "a" (by decide)).2.2.1⟩

/-- Claim C7 on a certificate without common name: the row is stored under
the hexadecimal digest. -/
theorem Put_adds_row_witness :
    Put demoLib (SqlDepot ⟨[], [], []⟩) 5 none "x" ⟨[0, 171, 16], "", 5, 1, 2⟩
      = ({ database := ⟨[⟨5, "00ab", 1, 2, [0, 0, 171, 16]⟩], [], []⟩,
           certificate := none, rsaKey := none }, none) ∧
    ∃ row : CertRow,
      ({ database := ⟨[⟨5, "00ab", 1, 2, [0, 0, 171, 16]⟩], [], []⟩,
         certificate := none, rsaKey := none } : SQLDepot)
        = { SqlDepot ⟨[], [], []⟩ with database :=
              { (SqlDepot ⟨[], [], []⟩).database with
                certificates := (SqlDepot ⟨[], [], []⟩).database.certificates ++ [row] } } ∧
      row.id = 5 :=
  have h : Put demoLib (SqlDepot ⟨[], [], []⟩) 5 none "x" ⟨[0, 171, 16], "", 5, 1, 2⟩
      = ({ database := ⟨[⟨5, "00ab", 1, 2, [0, 0, 171, 16]⟩], [], []⟩,
           certificate := none, rsaKey := none }, none) := by decide
  ⟨h, (Put_adds_row demoLib _ _ _ _ _ _ h).imp (fun _ hr => ⟨hr.1, hr.2.1⟩)⟩

/-- Claim C8 on the serial number `2^63`. -/
theorem Put_rejects_wide_serial_witness :
    ¬ IsInt64 9223372036854775808 ∧
    Put demoLib (SqlDepot ⟨[], [], []⟩) 1 none "x"
        ⟨[1, 2], "device", 9223372036854775808, 0, 10⟩
      = (SqlDepot ⟨[], [], []⟩,
          some (GoError.errorsNew "cannot represent serial number as int64")) :=
  ⟨by decide, (Put_rejects_wide_serial demoLib (SqlDepot ⟨[], [], []⟩) 1 none "x"
    ⟨[1, 2], "device", 9223372036854775808, 0, 10⟩ (by decide)).1⟩

/-- Claim C4 on a table with one row and two `Put` calls. -/
theorem Serial_monotone_witness :
    PutsSucceed demoLib (SqlDepot ⟨[⟨1, "Test CA", 0, 10, [0, 3, 4]⟩], [], []⟩)
      [⟨"a", ⟨[1, 2], "a", 2, 0, 10⟩, 2, none⟩, ⟨"b", ⟨[1, 3], "b", 3, 0, 10⟩, 5, none⟩] ∧
    ∃ vals : List Int,
      serialAfterEachPut demoLib (SqlDepot ⟨[⟨1, "Test CA", 0, 10, [0, 3, 4]⟩], [], []⟩)
          [⟨"a", ⟨[1, 2], "a", 2, 0, 10⟩, 2, none⟩, ⟨"b", ⟨[1, 3], "b", 3, 0, 10⟩, 5, none⟩]
        = vals.map (fun v => Outcome.returned (v, none)) ∧
      vals.length = 2 ∧ List.Chain' (· < ·) vals :=
  have h : PutsSucceed demoLib (SqlDepot ⟨[⟨1, "Test CA", 0, 10, [0, 3, 4]⟩], [], []⟩)
      [⟨"a", ⟨[1, 2], "a", 2, 0, 10⟩, 2, none⟩, ⟨"b", ⟨[1, 3], "b", 3, 0, 10⟩, 5, none⟩] := by
    unfold PutsSucceed PutsSucceed PutsSucceed
    decide
  ⟨h, (Serial_monotone demoLib _ _ (by decide) h).2⟩

end Depot
